import Mathlib

/-!
A shallow embedding of the core pipeline of `libbyreads-rs` (files
`src/app.rs` and `src/main.rs`): Goodreads shelf scraping, per-library
Overdrive probing, and the per-book availability reduction.  Rust
`panic!`-style failures (`.unwrap()` on `Option`/serde values, vector
indexing) are modelled with an explicit `Crash` error in `Except`;
concurrency (tokio tasks pushing into a mutex-guarded vector, and the
`FuturesUnordered` bounded sweep) is modelled by nondeterministic
relations over explicit states.
-/

deriving instance DecidableEq for Except

/-- Models a Rust panic: an `.unwrap()` on a missing value, or an
out-of-bounds vector index. -/
inductive Crash where
  | unwrapFailed
  | indexEmpty
deriving DecidableEq, Repr

/-- `Option::unwrap` / `serde_json` accessor followed by `.unwrap()`:
crashes when the value is absent. -/
def getOrCrash {α : Type} : Option α → Except Crash α
  | some a => Except.ok a
  | none => Except.error Crash.unwrapFailed

/-- `GoodreadsBook` from `src/app.rs` (cover, title, author). -/
structure GoodreadsBook where
  cover : String
  title : String
  author : String
deriving DecidableEq, Repr

/-- `LibbyLibraryBook` from `src/app.rs`: the per-(book, library) probe
result. -/
structure LibbyLibraryBook where
  cover : String
  title : String
  author : String
  is_available : Bool
  is_holdable : Bool
  libby_search_url : String
deriving DecidableEq, Repr

/-- `LibbyBook` from `src/app.rs`: the aggregated per-book verdict. -/
structure LibbyBook where
  cover : String
  title : String
  author : String
  is_available : Bool
  is_holdable : Bool
  libby_search_url : String
  library_books : List LibbyLibraryBook
deriving DecidableEq, Repr

/-- `SearchLibrary` from `src/app.rs`. -/
structure SearchLibrary where
  system_name : String
  website_id : String
  fulfillment_id : String
  name : String
  branch_count : Int
deriving DecidableEq, Repr

/-- `Library` from `src/app.rs`: one library-system descriptor. -/
structure Library where
  search_library : SearchLibrary
  system_id : String
  libby_base_url : String
  overdrive_base_url : String
deriving DecidableEq, Repr

/-! ### The per-book availability reduction (`src/app.rs` lines 321-347)

```rust
let mut is_available = false;
let mut is_holdable = false;
let mut libby_search_url = &libby_library_books[0].libby_search_url;
for libby_library_book in libby_library_books.iter() {
    if libby_library_book.is_available {
        is_available = true;
        libby_search_url = &libby_library_book.libby_search_url;
        break;
    }
    if is_holdable == false && libby_library_book.is_holdable {
        is_holdable = true;
        libby_search_url = &libby_library_book.libby_search_url;
    }
}
```
-/

/-- The mutable loop state of the reduction: `is_available`,
`is_holdable`, `libby_search_url`. -/
structure AggState where
  is_available : Bool
  is_holdable : Bool
  libby_search_url : String
deriving DecidableEq, Repr

/-- The `for libby_library_book in libby_library_books.iter()` loop of the
reduction, with its early `break` on the first available result. -/
def aggLoop : List LibbyLibraryBook → AggState → AggState
  | [], s => s
  | b :: rest, s =>
    if b.is_available then
      { s with is_available := true, libby_search_url := b.libby_search_url }
    else if !s.is_holdable && b.is_holdable then
      aggLoop rest { s with is_holdable := true, libby_search_url := b.libby_search_url }
    else
      aggLoop rest s

/-- The reduction of `get_libby_availability` (`src/app.rs` 321-347): the
initial `libby_library_books[0]` read panics (modelled as `none`) when no
library was queried; otherwise the loop runs and the `LibbyBook` is built. -/
def reduceAvailability (book : GoodreadsBook) (results : List LibbyLibraryBook) :
    Option LibbyBook :=
  match results with
  | [] => none
  | first :: _ =>
    let s := aggLoop results ⟨false, false, first.libby_search_url⟩
    some { cover := book.cover, title := book.title, author := book.author,
           is_available := s.is_available, is_holdable := s.is_holdable,
           libby_search_url := s.libby_search_url, library_books := results }

/-! ### Reduction lemmas -/

/-- The loop sets `is_available` exactly when some result is available. -/
theorem aggLoop_is_available (l : List LibbyLibraryBook) (s : AggState) :
    (aggLoop l s).is_available = (s.is_available || l.any (·.is_available)) := by
  induction l generalizing s with
  | nil => simp [aggLoop]
  | cons b rest ih =>
    by_cases hb : b.is_available
    · simp [aggLoop, hb]
    · by_cases hh : !s.is_holdable && b.is_holdable
      · simp [aggLoop, hb, hh, ih]
      · simp [aggLoop, hb, hh, ih]

/-- The loop sets `is_holdable` exactly when some result strictly before the
first available one is holdable (the `break` stops updates afterwards, but
does not clear an already-set flag). -/
theorem aggLoop_is_holdable (l : List LibbyLibraryBook) (s : AggState) :
    (aggLoop l s).is_holdable
      = (s.is_holdable || (l.takeWhile (fun b => !b.is_available)).any (·.is_holdable)) := by
  induction l generalizing s with
  | nil => simp [aggLoop]
  | cons b rest ih =>
    cases hb : b.is_available
    · cases hs : s.is_holdable <;> cases hbh : b.is_holdable <;>
        simp [aggLoop, hb, hs, hbh, ih, List.takeWhile]
    · simp [aggLoop, hb, List.takeWhile]

/-- The loop records the search URL of the first available result when one
exists. -/
theorem aggLoop_url_of_first_available (l : List LibbyLibraryBook) (s : AggState)
    (b : LibbyLibraryBook) (h : l.find? (·.is_available) = some b) :
    (aggLoop l s).libby_search_url = b.libby_search_url := by
  induction l generalizing s with
  | nil => simp [List.find?] at h
  | cons x rest ih =>
    cases hx : x.is_available
    · rw [List.find?_cons_of_neg] at h
      · cases hs : s.is_holdable <;> cases hxh : x.is_holdable <;>
          simp [aggLoop, hx, hs, hxh, ih _ h]
      · simp [hx]
    · rw [List.find?_cons_of_pos] at h
      · cases h
        simp [aggLoop, hx]
      · simp [hx]

/-! ### The Overdrive prober (`src/app.rs` lines 234-320)

The JSON response is modelled at the shape level: `none` for a body that
fails to parse or whose `items` field is not an array, and `RawItem`
fields are `Option`s (`none` when the field is missing or of the wrong
type).  Every field access in the Rust code is `.unwrap()`ed, which the
model maps to `getOrCrash`. -/

/-- One element of the lending API's `items` array, before the
`.unwrap()` accesses. -/
structure RawItem where
  title : Option String
  firstCreatorSortName : Option String
  isAvailable : Option Bool
  isHoldable : Option Bool
  cover : Option String
deriving DecidableEq, Repr

/-- A well-shaped `items` element (all expected fields present). -/
structure OverdriveItem where
  title : String
  firstCreatorSortName : String
  isAvailable : Bool
  isHoldable : Bool
  cover : String
deriving DecidableEq, Repr

/-- Embeds a well-shaped item into the raw shape. -/
def rawOfItem (it : OverdriveItem) : RawItem :=
  ⟨some it.title, some it.firstCreatorSortName, some it.isAvailable,
   some it.isHoldable, some it.cover⟩

/-- Models Rust `str::to_lowercase` (per-character lowercasing; ASCII is
what the matching depends on). -/
def rustToLowercase (s : String) : String := String.mk (s.data.map Char.toLower)

/-- Models Rust `str::starts_with`. -/
def rustStartsWith (s pre : String) : Bool := List.isPrefixOf pre.data s.data

/-- Models Rust `str::trim` (strip leading and trailing whitespace). -/
def rustTrim (s : String) : String :=
  String.mk (((s.data.dropWhile (·.isWhitespace)).reverse.dropWhile
    (·.isWhitespace)).reverse)

/-- Models `String::replace("\n", "")`: drop every newline character. -/
def rustRemoveNewlines (s : String) : String :=
  String.mk (s.data.filter (fun c => c != '\n'))

/-- The UTF-8 bytes of a string, as naturals. -/
def utf8Bytes (s : String) : List Nat :=
  (s.data.flatMap (fun c => String.utf8EncodeChar c)).map (·.toNat)

/-- One hex digit, uppercase, as produced by `urlencoding::encode`. -/
def hexDigitChar (n : Nat) : Char :=
  if n < 10 then Char.ofNat (48 + n) else Char.ofNat (55 + n)

/-- `urlencoding::encode` keeps ASCII alphanumerics and `-`, `.`, `_`, `~`
verbatim. -/
def isUrlUnreserved (b : Nat) : Bool :=
  (65 ≤ b && b ≤ 90) || (97 ≤ b && b ≤ 122) || (48 ≤ b && b ≤ 57) ||
    b == 45 || b == 46 || b == 95 || b == 126

/-- Percent-encoding of a single UTF-8 byte. -/
def encodeByte (b : Nat) : String :=
  if isUrlUnreserved b then String.singleton (Char.ofNat b)
  else String.singleton '%' ++ String.singleton (hexDigitChar (b / 16))
    ++ String.singleton (hexDigitChar (b % 16))

/-- `urlencoding::encode` over the UTF-8 bytes of the query string. -/
def urlEncode (s : String) : String :=
  String.join ((utf8Bytes s).map encodeByte)

/-- The human-facing search link built per library
(`src/app.rs` 242-249): base URL, the URL-encoded `"{title} {author}"`
query, and the fixed page segment. -/
def libbySearchUrl (lib : Library) (book : GoodreadsBook) : String :=
  lib.libby_base_url ++ "/search/query-"
    ++ urlEncode (book.title ++ " " ++ book.author) ++ "/page-1"

/-- Title normalisation applied to each item title before matching
(`src/app.rs` 281-282): remove newlines, then trim. -/
def normalizeItemTitle (t : String) : String := rustTrim (rustRemoveNewlines t)

/-- The `for item in items` loop of `get_libby_availability`
(`src/app.rs` 280-303): unwrap the five fields of each item in turn, then
test the match rule (book title starts with the item title and the author
is equal, both case-insensitively); the first match is returned and the
loop breaks. -/
def matchLoop (book : GoodreadsBook) (searchUrl : String) :
    List RawItem → Except Crash (Option LibbyLibraryBook)
  | [] => Except.ok none
  | raw :: rest => do
    let t ← getOrCrash raw.title
    let title := normalizeItemTitle t
    let author ← getOrCrash raw.firstCreatorSortName
    let avail ← getOrCrash raw.isAvailable
    let hold ← getOrCrash raw.isHoldable
    let cover ← getOrCrash raw.cover
    if rustStartsWith (rustToLowercase book.title) (rustToLowercase title)
        && rustToLowercase author == rustToLowercase book.author then
      Except.ok (some ⟨cover, title, author, avail, hold, searchUrl⟩)
    else
      matchLoop book searchUrl rest

/-- One library's probe (`src/app.rs` 245-319): unwrap the `items` array,
run the matching loop, and on no match push the explicit not-found result
(both flags false, empty cover, the original book title/author, and the
constructed search URL). -/
def probeLibrary (book : GoodreadsBook) (lib : Library)
    (resp : Option (List RawItem)) : Except Crash LibbyLibraryBook := do
  let searchUrl := libbySearchUrl lib book
  let items ← getOrCrash resp
  let found ← matchLoop book searchUrl items
  match found with
  | some b => Except.ok b
  | none => Except.ok ⟨"", book.title, book.author, false, false, searchUrl⟩

/-- The `for library in &libraries` loop of `get_libby_availability`
(`src/app.rs` 245-320), sequentially accumulating one probe result per
library; a crash in any library's probe aborts the whole call. -/
def probeAll (book : GoodreadsBook) :
    List (Library × Option (List RawItem)) → Except Crash (List LibbyLibraryBook)
  | [] => Except.ok []
  | (lib, resp) :: rest => do
    let b ← probeLibrary book lib resp
    let bs ← probeAll book rest
    Except.ok (b :: bs)

/-- `get_libby_availability` (`src/app.rs` 234-348), with the per-library
responses supplied as the environment: probe every library in order, then
run the reduction (which reads `libby_library_books[0]`). -/
def get_libby_availability (book : GoodreadsBook)
    (libs : List (Library × Option (List RawItem))) : Except Crash LibbyBook := do
  let results ← probeAll book libs
  match reduceAvailability book results with
  | some v => Except.ok v
  | none => Except.error Crash.indexEmpty

/-- C1: the claim says a book probed with zero selected libraries yields an
explicit "no libraries selected" verdict rather than an empty-list access.
The code has no such branch: with `libraries = []` the accumulator is empty
and `&libby_library_books[0]` (`src/app.rs` 326) is an out-of-bounds index,
i.e. a panic, modelled here as `Crash.indexEmpty`. -/
theorem get_libby_availability_empty_crashes (book : GoodreadsBook) :
    get_libby_availability book [] = Except.error Crash.indexEmpty := rfl

/-- Concrete book for the C2 counterexample. -/
def c2Book : GoodreadsBook := ⟨"cov", "Dune", "Herbert, Frank"⟩

/-- A holdable-but-not-available probe result (first library). -/
def c2Hold : LibbyLibraryBook := ⟨"", "Dune", "Herbert, Frank", false, true, "url-hold"⟩

/-- An available probe result (second library). -/
def c2Avail : LibbyLibraryBook := ⟨"c", "Dune", "Herbert, Frank", true, false, "url-avail"⟩

/-- C2 counterexample: the claim says the verdict is holdable iff no result
is available.  With results `[holdable, available]` the loop sets
`is_holdable` on the first result and then `is_available` on the second;
the `break` never clears the already-set holdable flag, so the produced
verdict has both flags true even though a result is available. -/
theorem reduce_holdable_despite_available :
    ∃ v, reduceAvailability c2Book [c2Hold, c2Avail] = some v ∧
      v.is_available = true ∧ v.is_holdable = true ∧
      [c2Hold, c2Avail].any (·.is_available) = true := by
  refine ⟨_, rfl, rfl, rfl, rfl⟩

/-- C2 (amended): for a non-empty result list the verdict's `is_available`
is true iff some result is available, and the first available result's
search URL is recorded; `is_holdable` is true iff some result *strictly
before the first available one* (anywhere, when none is available) is
holdable — the flag is frozen, not cleared, once an available result is
found. -/
theorem reduceAvailability_verdict (book : GoodreadsBook)
    (l : List LibbyLibraryBook) (h : l ≠ []) :
    ∃ v, reduceAvailability book l = some v ∧
      v.is_available = l.any (·.is_available) ∧
      v.is_holdable = (l.takeWhile (fun b => !b.is_available)).any (·.is_holdable) ∧
      (l.any (·.is_available) = false → v.is_holdable = l.any (·.is_holdable)) ∧
      (∀ b, l.find? (·.is_available) = some b →
        v.libby_search_url = b.libby_search_url) ∧
      v.library_books = l := by
  match l, h with
  | first :: rest, _ =>
    refine ⟨_, rfl, ?_, ?_, ?_, ?_, rfl⟩
    · simpa using aggLoop_is_available (first :: rest) ⟨false, false, first.libby_search_url⟩
    · simpa using aggLoop_is_holdable (first :: rest) ⟨false, false, first.libby_search_url⟩
    · intro hnone
      have hall : (first :: rest).takeWhile (fun b => !b.is_available) = first :: rest := by
        rw [List.takeWhile_eq_self_iff]
        intro a ha
        simp only [List.any_eq_false] at hnone
        simpa using hnone a ha
      simpa [hall] using aggLoop_is_holdable (first :: rest) ⟨false, false, first.libby_search_url⟩
    · intro b hb
      simpa using aggLoop_url_of_first_available (first :: rest) ⟨false, false, first.libby_search_url⟩ b hb

/-- Witness for C2's amended theorem at a concrete one-element input. -/
theorem reduceAvailability_verdict_witness :
    ∃ v, reduceAvailability c2Book [c2Avail] = some v ∧
      v.is_available = [c2Avail].any (·.is_available) ∧
      v.is_holdable = ([c2Avail].takeWhile (fun b => !b.is_available)).any (·.is_holdable) ∧
      ([c2Avail].any (·.is_available) = false →
        v.is_holdable = [c2Avail].any (·.is_holdable)) ∧
      (∀ b, [c2Avail].find? (·.is_available) = some b →
        v.libby_search_url = b.libby_search_url) ∧
      v.library_books = [c2Avail] :=
  reduceAvailability_verdict c2Book [c2Avail] (by simp)

/-- The match rule of `src/app.rs` 288-289: the (lowercased) book title
starts with the (normalised, lowercased) item title, and the item's
`firstCreatorSortName` equals the book author case-insensitively. -/
def itemMatches (book : GoodreadsBook) (it : OverdriveItem) : Bool :=
  rustStartsWith (rustToLowercase book.title)
      (rustToLowercase (normalizeItemTitle it.title))
    && rustToLowercase it.firstCreatorSortName == rustToLowercase book.author

/-- The `LibbyLibraryBook` built from a matched item (`src/app.rs` 291-298). -/
def matchedResult (searchUrl : String) (it : OverdriveItem) : LibbyLibraryBook :=
  ⟨it.cover, normalizeItemTitle it.title, it.firstCreatorSortName,
   it.isAvailable, it.isHoldable, searchUrl⟩

/-- The explicit not-found `LibbyLibraryBook` (`src/app.rs` 311-318). -/
def notFoundResult (book : GoodreadsBook) (lib : Library) : LibbyLibraryBook :=
  ⟨"", book.title, book.author, false, false, libbySearchUrl lib book⟩

/-- On a well-shaped item the five unwraps succeed and the loop step is the
match test. -/
theorem matchLoop_cons_wellformed (book : GoodreadsBook) (searchUrl : String)
    (it : OverdriveItem) (l : List RawItem) :
    matchLoop book searchUrl (rawOfItem it :: l)
      = if itemMatches book it
        then Except.ok (some (matchedResult searchUrl it))
        else matchLoop book searchUrl l := rfl

/-- On a well-shaped item list the matching loop returns the first item, in
list order, satisfying the match rule. -/
theorem matchLoop_find (book : GoodreadsBook) (searchUrl : String)
    (items : List OverdriveItem) :
    matchLoop book searchUrl (items.map rawOfItem)
      = Except.ok ((items.find? (itemMatches book)).map (matchedResult searchUrl)) := by
  induction items with
  | nil => rfl
  | cons it rest ih =>
    rw [List.map_cons, matchLoop_cons_wellformed]
    cases hm : itemMatches book it
    · rw [List.find?_cons_of_neg _ (by simp [hm]), ih]
      simp [hm]
    · rw [List.find?_cons_of_pos _ hm]
      simp [hm]

/-- C8: for every book and every well-shaped lending-API item list, the
prober's loop returns exactly the first item, in the API's order, whose
title passes the starts-with rule (book title starts with the normalised
item title, case-insensitively) and whose author matches case-insensitively
(`List.find?` is first-match-in-order, so no re-sorting happens). -/
theorem prober_matches_first_in_api_order (book : GoodreadsBook)
    (searchUrl : String) (items : List OverdriveItem) :
    matchLoop book searchUrl (items.map rawOfItem)
      = Except.ok ((items.find? fun it =>
            rustStartsWith (rustToLowercase book.title)
                (rustToLowercase (normalizeItemTitle it.title))
              && rustToLowercase it.firstCreatorSortName
                  == rustToLowercase book.author).map
          (matchedResult searchUrl)) :=
  matchLoop_find book searchUrl items

/-- What one library's probe evaluates to on a well-shaped response: the
first matching item's record, or the explicit not-found record. -/
def probeResult (book : GoodreadsBook) (lib : Library)
    (items : List OverdriveItem) : LibbyLibraryBook :=
  match items.find? (itemMatches book) with
  | some it => matchedResult (libbySearchUrl lib book) it
  | none => notFoundResult book lib

/-- `probeLibrary` on a well-shaped response never crashes and emits
exactly one result. -/
theorem probeLibrary_wellformed (book : GoodreadsBook) (lib : Library)
    (items : List OverdriveItem) :
    probeLibrary book lib (some (items.map rawOfItem))
      = Except.ok (probeResult book lib items) := by
  show Except.bind (matchLoop book (libbySearchUrl lib book) (items.map rawOfItem)) _
      = _
  rw [matchLoop_find]
  cases h : items.find? (itemMatches book) <;>
    simp [Except.bind, probeResult, notFoundResult, h]

/-- `probeAll` on well-shaped responses emits one result per library, in
library order. -/
theorem probeAll_wellformed (book : GoodreadsBook)
    (libs : List (Library × List OverdriveItem)) :
    probeAll book (libs.map fun p => (p.1, some (p.2.map rawOfItem)))
      = Except.ok (libs.map fun p => probeResult book p.1 p.2) := by
  induction libs with
  | nil => rfl
  | cons q rest ih =>
    show Except.bind (probeLibrary book q.1 (some (q.2.map rawOfItem))) _ = _
    rw [probeLibrary_wellformed]
    show Except.bind (probeAll book (rest.map fun p => (p.1, some (p.2.map rawOfItem)))) _ = _
    rw [ih]
    rfl

/-- C9: with well-shaped responses, probing emits exactly one result per
queried library (so the result count equals the library count), and every
library where no item matches gets the explicit not-found record: both
flags false, empty cover, the original book title and author, and the
constructed search URL. -/
theorem probeAll_explicit_not_found (book : GoodreadsBook)
    (libs : List (Library × List OverdriveItem)) :
    ∃ results,
      probeAll book (libs.map fun p => (p.1, some (p.2.map rawOfItem)))
        = Except.ok results ∧
      results.length = libs.length ∧
      ∀ (i : Nat) (p : Library × List OverdriveItem),
        libs[i]? = some p → p.2.find? (itemMatches book) = none →
        results[i]?
          = some ⟨"", book.title, book.author, false, false,
              libbySearchUrl p.1 book⟩ := by
  refine ⟨libs.map fun p => probeResult book p.1 p.2,
    probeAll_wellformed book libs, by simp, ?_⟩
  intro i p hp hnone
  rw [List.getElem?_map, hp]
  simp [probeResult, hnone, notFoundResult]

/-- A concrete library-system descriptor for witnesses. -/
def wLib : Library :=
  ⟨⟨"Hawaii State Public Library System", "50", "hawaii", "Hawaii Kai Library", 1⟩,
   "hawaii", "https://libbyapp.com/library/hawaii",
   "https://thunder.api.overdrive.com/v2/libraries/hawaii"⟩

/-- A concrete book for witnesses. -/
def wBook : GoodreadsBook := ⟨"cov", "The Martian", "Weir, Andy"⟩

/-- Witness for C9 at one concrete library whose response has no items. -/
theorem probeAll_explicit_not_found_witness :
    ∃ results,
      probeAll wBook ([(wLib, ([] : List OverdriveItem))].map fun p =>
          (p.1, some (p.2.map rawOfItem)))
        = Except.ok results ∧
      results.length = [(wLib, ([] : List OverdriveItem))].length ∧
      ∀ (i : Nat) (p : Library × List OverdriveItem),
        [(wLib, ([] : List OverdriveItem))][i]? = some p →
        p.2.find? (itemMatches wBook) = none →
        results[i]?
          = some ⟨"", wBook.title, wBook.author, false, false,
              libbySearchUrl p.1 wBook⟩ :=
  probeAll_explicit_not_found wBook [(wLib, [])]

/-- A second concrete library-system descriptor. -/
def wLib2 : Library :=
  ⟨⟨"Utah State Library", "34550", "beehive", "Beehive Library", 1⟩,
   "beehive", "https://libbyapp.com/library/beehive",
   "https://thunder.api.overdrive.com/v2/libraries/beehive"⟩

/-- A well-shaped, available, matching item for `wBook`. -/
def wItem : OverdriveItem := ⟨"The Martian", "Weir, Andy", true, false, "cov150"⟩

/-- C6: the claim says an unexpected JSON shape is treated as a
per-(book, library) probe error.  In the code every shape access is
`.unwrap()`ed (`src/app.rs` 277-286), so a response without an `items`
array panics the whole `get_libby_availability` call: the sibling library
(which alone probes fine and finds the book available) is lost too, and no
per-library error record exists.  An item missing its `isAvailable`
boolean panics the same way. -/
theorem shape_error_panics_whole_book :
    get_libby_availability wBook [(wLib, none), (wLib2, some [rawOfItem wItem])]
        = Except.error Crash.unwrapFailed ∧
    get_libby_availability wBook
        [(wLib2, some [⟨some "The Martian", some "Weir, Andy", none, some false,
          some "cov150"⟩])]
        = Except.error Crash.unwrapFailed ∧
    (get_libby_availability wBook [(wLib2, some [rawOfItem wItem])]).map
        (·.is_available) = Except.ok true := by
  refine ⟨by decide, by decide, by decide⟩

/-! ### The Goodreads shelf parser (`src/app.rs` 85-232, `src/main.rs` 46-152) -/

/-- One `tr.bookalike.review` row, before the `.unwrap()`ed element
lookups: `coverSrc` is the `src` of the first `td.field.cover img` (absent
when the element or attribute is missing), `titleTexts` the direct text
nodes of the first `td.field.title a`, `authorHtml` the inner HTML of the
first `td.field.author a`. -/
structure BookRow where
  coverSrc : Option String
  titleTexts : Option (List String)
  authorHtml : Option String
deriving DecidableEq, Repr

/-- Parsing one row (`src/app.rs` 166-208): unwrap the cover element and
its `src`, join the trimmed direct text nodes of the title anchor with
spaces, and trim the author anchor's inner HTML. -/
def parseRow (row : BookRow) : Except Crash GoodreadsBook := do
  let cover ← getOrCrash row.coverSrc
  let texts ← getOrCrash row.titleTexts
  let title := String.intercalate " " (texts.map rustTrim)
  let author ← getOrCrash row.authorHtml
  Except.ok ⟨cover, title, rustTrim author⟩

/-- The `for book_row in document.select(..)` loop: parse each row in
document order; a crash in any row kills the page task (and, through
`task.await?`, the whole aggregation). -/
def parsePage : List BookRow → Except Crash (List GoodreadsBook)
  | [] => Except.ok []
  | r :: rest => do
    let b ← parseRow r
    let bs ← parsePage rest
    Except.ok (b :: bs)

/-- An ordinary parsed row. -/
def rowGood1 : BookRow :=
  ⟨some "c1", some ["A Darker Shade of Magic", ""], some "Schwab, V.E."⟩

/-- A row whose cover `img` element is missing. -/
def rowNoCover : BookRow := ⟨none, some ["Dune"], some "Herbert, Frank"⟩

/-- Another ordinary row. -/
def rowGood2 : BookRow := ⟨some "c2", some ["The Martian"], some "Weir, Andy"⟩

/-- C5: the claim says a row missing its cover element is skipped and the
rest of the page is returned.  The code `.unwrap()`s the element lookup
(`src/app.rs` 168), so the malformed row panics the page task and no rows
survive — while the same page without the malformed row parses fully. -/
theorem malformed_row_panics_page :
    parsePage [rowGood1, rowNoCover, rowGood2] = Except.error Crash.unwrapFailed ∧
    parsePage [rowGood1, rowGood2]
      = Except.ok [⟨"c1", "A Darker Shade of Magic ", "Schwab, V.E."⟩,
          ⟨"c2", "The Martian", "Weir, Andy"⟩] := ⟨by decide, by decide⟩

/-- The parsed content of the initially fetched shelf page
(`src/app.rs` 105-131): whether the `#privateProfile` marker is present,
the integers parsed from the `#reviewPagination a` anchors, and the book
rows. -/
structure ShelfPage where
  privateProfile : Bool
  paginationNums : List Nat
  rows : List BookRow
deriving DecidableEq, Repr

/-- The error channel of `get_goodreads_books`: the explicit
`ServerFnError::ServerError("Private profile")` return
(`src/app.rs` 117), or a join error from a panicking page task
(`task.await?`, `src/app.rs` 218). -/
inductive GoodreadsError where
  | privateProfile
  | taskJoin (c : Crash)
deriving DecidableEq, Repr

/-- The synchronous prelude of `get_goodreads_books`
(`src/app.rs` 105-131): check the privacy marker first and return the
error before any further work; otherwise the page count is the maximum
pagination number, or 1 when there are no pagination links. -/
def initialPhase (fp : ShelfPage) : Except GoodreadsError Nat :=
  if fp.privateProfile then Except.error GoodreadsError.privateProfile
  else Except.ok (fp.paginationNums.max?.getD 1)

/-- The number of page-fetch tasks spawned after the prelude
(`src/app.rs` 141-214): one per page `1..=last_page`, and none at all when
the prelude returned an error. -/
def pagesFetched (fp : ShelfPage) : Nat :=
  match initialPhase fp with
  | Except.error _ => 0
  | Except.ok lastPage => lastPage

/-- C7: a page-1 document carrying the profile-privacy marker makes the
aggregation fail with the dedicated private-profile error — a constructor
distinct from the task-panic errors — before any page-fetch task is
spawned, so zero subsequent page fetches happen. -/
theorem private_profile_short_circuits (fp : ShelfPage)
    (h : fp.privateProfile = true) :
    initialPhase fp = Except.error GoodreadsError.privateProfile ∧
    pagesFetched fp = 0 ∧
    ∀ c, (GoodreadsError.privateProfile ≠ GoodreadsError.taskJoin c) := by
  refine ⟨by simp [initialPhase, h], by simp [pagesFetched, initialPhase, h], ?_⟩
  intro c hc
  cases hc

/-- Witness for C7 at a concrete private page. -/
theorem private_profile_short_circuits_witness :
    initialPhase ⟨true, [2, 3], []⟩ = Except.error GoodreadsError.privateProfile ∧
    pagesFetched ⟨true, [2, 3], []⟩ = 0 ∧
    ∀ c, (GoodreadsError.privateProfile ≠ GoodreadsError.taskJoin c) :=
  private_profile_short_circuits ⟨true, [2, 3], []⟩ rfl

/-- The CLI's page-count discovery and clamp (`src/main.rs` 72-83): the
maximum pagination number (1 when there are no pagination links), limited
to 2. -/
def cliLastPage (paginationNums : List Nat) : Nat :=
  let lastPage := paginationNums.max?.getD 1
  if lastPage > 2 then 2 else lastPage

/-- The pages the CLI fetches (`src/main.rs` 87): `1..=last_page`. -/
def cliPagesFetched (paginationNums : List Nat) : List Nat :=
  List.range' 1 (cliLastPage paginationNums)

/-- C10: in the CLI variant, when the discovered page count exceeds 2 the
fetch loop runs over pages 1 and 2 only; no page numbered 3 or higher is
ever fetched. -/
theorem cli_fetches_at_most_two_pages (nums : List Nat)
    (h : 2 < nums.max?.getD 1) :
    cliPagesFetched nums = [1, 2] ∧ ∀ p ∈ cliPagesFetched nums, p ≤ 2 := by
  have hc : cliLastPage nums = 2 := by simp [cliLastPage, h]
  constructor
  · rw [cliPagesFetched, hc]
    rfl
  · intro p hp
    rw [cliPagesFetched, hc] at hp
    simp [List.range'] at hp
    rcases hp with rfl | rfl <;> decide

/-- Witness for C10 on a shelf whose pagination links reach page 7. -/
theorem cli_fetches_at_most_two_pages_witness :
    cliPagesFetched [2, 7, 3] = [1, 2] ∧ ∀ p ∈ cliPagesFetched [2, 7, 3], p ≤ 2 :=
  cli_fetches_at_most_two_pages [2, 7, 3] (by decide)

/-! ### Concurrent page aggregation (`src/app.rs` 140-231)

One tokio task is spawned per page (pages `1..=last_page`, page 1 again
included), and each task pushes its parsed books one at a time into the
shared `Arc<Mutex<Vec<GoodreadsBook>>>` (`src/app.rs` 206-208).  The mutex
is taken per push, so the possible final vectors are exactly the
interleavings of the per-page book lists: at every step of the schedule
some task `i` pushes the next book of its page. -/

/-- `Shuffle pages out` holds when `out` is a possible content of the
shared vector after all page tasks are joined, under some scheduling of
the per-task pushes.  Each task pushes its own page's books in document
order; pushes of different tasks interleave arbitrarily. -/
inductive Shuffle {α : Type} : List (List α) → List α → Prop
  | done (ps : List (List α)) : (∀ l ∈ ps, l = []) → Shuffle ps []
  | push (ps : List (List α)) (i : Nat) (x : α) (l : List α) (out : List α) :
      ps[i]? = some (x :: l) → Shuffle (ps.set i l) out → Shuffle ps (x :: out)

/-- Taking one element off the `i`-th list lowers the total length by one. -/
theorem sum_lengths_set {α : Type} (ps : List (List α)) (i : Nat) (x : α)
    (l : List α) (h : ps[i]? = some (x :: l)) :
    ((ps.set i l).map List.length).sum + 1 = (ps.map List.length).sum := by
  induction ps generalizing i with
  | nil => simp at h
  | cons p rest ih =>
    cases i with
    | zero =>
      simp at h
      simp only [List.set, List.map_cons, List.sum_cons, h, List.length_cons]
      omega
    | succ j =>
      simp at h
      have hr := ih j h
      simp only [List.set, List.map_cons, List.sum_cons]
      omega

/-- A family of exhausted task queues contributes no length. -/
theorem sum_lengths_all_nil {α : Type} (ps : List (List α))
    (h : ∀ l ∈ ps, l = []) : (ps.map List.length).sum = 0 := by
  induction ps with
  | nil => rfl
  | cons p rest ih =>
    have hp := h p (by simp)
    have hr := ih (fun l hl => h l (by simp [hl]))
    simp [hp, hr]

/-- Every interleaving outcome has the summed length. -/
theorem shuffle_length {α : Type} {ps : List (List α)} {out : List α}
    (h : Shuffle ps out) : out.length = (ps.map List.length).sum := by
  induction h with
  | done ps hall => simp [sum_lengths_all_nil ps hall]
  | push ps i x l out hi hs ih =>
    have hsum := sum_lengths_set ps i x l hi
    rw [List.length_cons, ih]
    omega

/-- Every queued list survives as a subsequence of any interleaving
outcome (each task's own pushes stay in order). -/
theorem shuffle_sublist {α : Type} {ps : List (List α)} {out : List α}
    (h : Shuffle ps out) : ∀ p ∈ ps, p.Sublist out := by
  induction h with
  | done ps hall =>
    intro p hp
    simp [hall p hp]
  | push ps i x l out hi hs ih =>
    intro p hp
    obtain ⟨j, hj⟩ := List.mem_iff_getElem?.mp hp
    by_cases hij : j = i
    · subst hij
      rw [hj] at hi
      injection hi with hpe
      have hjlt : j < ps.length := (List.getElem?_eq_some_iff.mp hj).1
      have hmem : l ∈ ps.set j l := by
        refine List.mem_iff_getElem?.mpr ⟨j, ?_⟩
        rw [List.getElem?_set_self (by simpa using hjlt)]
      subst hpe
      exact List.Sublist.cons₂ x (ih l hmem)
    · have hj' : (ps.set i l)[j]? = some p := by
        rw [List.getElem?_set_ne (fun he => hij he.symm)]
        exact hj
      exact List.Sublist.cons x (ih p (List.mem_iff_getElem?.mpr ⟨j, hj'⟩))

/-- First page-1 book for the C4 schedule example. -/
def c4Book1 : GoodreadsBook := ⟨"c1", "Title One", "Author One"⟩

/-- Lone page-2 book for the C4 schedule example. -/
def c4Book2 : GoodreadsBook := ⟨"c2", "Title Two", "Author Two"⟩

/-- The schedule in which page 2's task pushes before page 1's. -/
theorem shuffle_rev_example : Shuffle [[c4Book1], [c4Book2]] [c4Book2, c4Book1] := by
  refine Shuffle.push _ 1 c4Book2 [] _ rfl ?_
  refine Shuffle.push _ 0 c4Book1 [] _ rfl ?_
  exact Shuffle.done _ (by simp)

/-- C4 counterexample: the claim promises page-1-first ordering, but with
two pages of one successfully parsed row each, the schedule where page 2's
task runs first is a possible outcome of the concurrent collection and
yields the books in reversed page order. -/
theorem pages_can_interleave_out_of_order :
    Shuffle [[c4Book1], [c4Book2]] [c4Book2, c4Book1] ∧
    [c4Book2, c4Book1] ≠ [c4Book1, c4Book2] := by
  exact ⟨shuffle_rev_example, by decide⟩

/-- C4 (amended): for a multi-page shelf whose pages all fetch and parse
successfully, every possible outcome of the aggregation has length equal
to the sum of the per-page row counts, and each page's books appear in it
in document order (as a subsequence); the cross-page order, however, is
schedule-dependent, not guaranteed page-1-first. -/
theorem catalog_outcome_length_and_page_order
    (pages : List (List GoodreadsBook)) (out : List GoodreadsBook)
    (h : Shuffle pages out) :
    out.length = (pages.map List.length).sum ∧
    ∀ p ∈ pages, p.Sublist out :=
  ⟨shuffle_length h, shuffle_sublist h⟩

/-- Witness for C4's amended theorem at the two-page schedule example. -/
theorem catalog_outcome_length_and_page_order_witness :
    [c4Book2, c4Book1].length = ([[c4Book1], [c4Book2]].map List.length).sum ∧
    ∀ p ∈ [[c4Book1], [c4Book2]], p.Sublist [c4Book2, c4Book1] :=
  catalog_outcome_length_and_page_order [[c4Book1], [c4Book2]]
    [c4Book2, c4Book1] shuffle_rev_example

/-! ### The bounded-concurrency availability sweep (`src/app.rs` 879-963)

`fetch_availability` drains the book list through a `FuturesUnordered`
pool: it starts up to 5 probe tasks (`src/app.rs` 894-924) and then, each
time a task completes (`in_flight.next().await`), starts the next queued
book if one remains (`src/app.rs` 927-958).  A completing task pushes its
verdict to the availability list when the probe succeeded and pushes
nothing when it failed (the `Err(_) => {}` branch, `src/app.rs` 949-951),
and always increments the progress counter once.  The model records each
book's probe outcome as a `Bool` (`true` = the server call returns `Ok`)
and lets any in-flight task be the one that completes at each step. -/

/-- The observable state of one availability sweep: the queue of
not-yet-started books, the in-flight tasks, the pushed verdicts, and the
progress counter. -/
structure SweepState where
  pending : List Bool
  inFlight : List Bool
  availability : List Bool
  progress : Nat
deriving DecidableEq, Repr

/-- The initial batch (`src/app.rs` 894-924): the first
`concurrency_limit = 5` books are started, the rest stay queued. -/
def initSweep (books : List Bool) : SweepState :=
  ⟨books.drop 5, books.take 5, [], 0⟩

/-- One completion event (`src/app.rs` 927-958): some in-flight task `o`
finishes — pushing its verdict only if the probe succeeded and bumping
progress — and the next queued book, if any, is started in its place. -/
inductive SweepStep : SweepState → SweepState → Prop
  | complete (s : SweepState) (o : Bool) (h : o ∈ s.inFlight) :
      SweepStep s
        ⟨s.pending.drop 1, (s.inFlight.erase o) ++ s.pending.take 1,
         s.availability ++ (if o then [o] else []), s.progress + 1⟩

/-- The sweep invariant: the in-flight window never exceeds 5, completed +
in-flight + queued books account for all of them, and pushed verdicts +
in-flight successes + queued successes account for all successful books. -/
def SweepInv (books : List Bool) (s : SweepState) : Prop :=
  s.inFlight.length ≤ 5 ∧
  s.progress + s.inFlight.length + s.pending.length = books.length ∧
  s.availability.length + (s.inFlight.filter id).length
    + (s.pending.filter id).length = (books.filter id).length

/-- Erasing one completed outcome removes its contribution to the count of
successes. -/
theorem length_filter_erase (o : Bool) (l : List Bool) (h : o ∈ l) :
    ((l.erase o).filter id).length + (if o then 1 else 0)
      = (l.filter id).length := by
  have hp : l.Perm (o :: l.erase o) := List.perm_cons_erase h
  rw [(hp.filter id).length_eq]
  cases o <;> simp [List.filter]

/-- The initial batch satisfies the invariant. -/
theorem sweepInv_init (books : List Bool) : SweepInv books (initSweep books) := by
  refine ⟨?_, ?_, ?_⟩
  · simp [initSweep]
  · simp [initSweep]
    omega
  · simp only [initSweep, List.length_nil, Nat.zero_add]
    rw [← List.length_append, ← List.filter_append, List.take_append_drop]

/-- Every completion event preserves the invariant. -/
theorem sweepInv_step {books : List Bool} {s t : SweepState}
    (hs : SweepInv books s) (hst : SweepStep s t) : SweepInv books t := by
  obtain ⟨h1, h2, h3⟩ := hs
  cases hst with
  | complete o ho =>
    have hlen : (s.inFlight.erase o).length = s.inFlight.length - 1 :=
      List.length_erase_of_mem ho
    have hfl := length_filter_erase o s.inFlight ho
    have hpos : 0 < s.inFlight.length := List.length_pos.mpr
      (fun he => by rw [he] at ho; cases ho)
    have htk : (s.pending.take 1).length + (s.pending.drop 1).length
        = s.pending.length := by
      rw [← List.length_append, List.take_append_drop]
    have htk1 : (s.pending.take 1).length ≤ 1 := by
      simp [List.length_take]
    have hpf : ((s.pending.take 1).filter id).length
        + ((s.pending.drop 1).filter id).length
        = (s.pending.filter id).length := by
      rw [← List.length_append, ← List.filter_append, List.take_append_drop]
    refine ⟨?_, ?_, ?_⟩
    · simp only [List.length_append, hlen]
      omega
    · simp only [List.length_append, hlen]
      omega
    · simp only [List.filter_append, List.length_append]
      cases o <;> simp at hfl hpf htk h3 ⊢ <;> omega

/-- The invariant holds in every reachable sweep state. -/
theorem sweepInv_reachable {books : List Bool} {s : SweepState}
    (h : Relation.ReflTransGen SweepStep (initSweep books) s) :
    SweepInv books s := by
  induction h with
  | refl => exact sweepInv_init books
  | tail hab hbc ih => exact sweepInv_step ih hbc

/-- C3 counterexample: with one book whose probe fails, a full sweep run
(one completion event) reaches the final state with progress 1 but an
empty verdict list — and the code's empty `Err(_)` branch records no error
entry either, so the sweep does not produce "one verdict or one error
entry per book". -/
theorem sweep_error_produces_no_entry :
    Relation.ReflTransGen SweepStep (initSweep [false])
      (⟨[], [], [], 1⟩ : SweepState) ∧
    (⟨[], [], [], 1⟩ : SweepState).availability.length ≠ [false].length := by
  constructor
  · exact Relation.ReflTransGen.single
      (SweepStep.complete (initSweep [false]) false (by decide))
  · decide

/-- C3 (amended): in every reachable state of the sweep at most 5 probe
tasks are in flight (a queued book starts only when one completes, by the
shape of `SweepStep`), and when the sweep finishes — no task in flight,
none queued — the progress counter equals the number of books (one
increment per book) while the verdict list holds exactly one entry per
*successfully* probed book; failed probes contribute no entry of any
kind. -/
theorem fetch_availability_bounded_sweep (books : List Bool) (s : SweepState)
    (h : Relation.ReflTransGen SweepStep (initSweep books) s) :
    s.inFlight.length ≤ 5 ∧
    (s.inFlight = [] → s.pending = [] →
      s.progress = books.length ∧
      s.availability.length = (books.filter id).length) := by
  obtain ⟨h1, h2, h3⟩ := sweepInv_reachable h
  refine ⟨h1, ?_⟩
  intro hif hp
  rw [hif, hp] at h2 h3
  simp at h2 h3
  exact ⟨h2, h3⟩

/-- Witness for C3's amended theorem: the one-book sweep whose probe
succeeds, run to completion. -/
theorem fetch_availability_bounded_sweep_witness :
    (⟨[], [], [true], 1⟩ : SweepState).inFlight.length ≤ 5 ∧
    ((⟨[], [], [true], 1⟩ : SweepState).inFlight = [] →
      (⟨[], [], [true], 1⟩ : SweepState).pending = [] →
      (⟨[], [], [true], 1⟩ : SweepState).progress = [true].length ∧
      (⟨[], [], [true], 1⟩ : SweepState).availability.length
        = ([true].filter id).length) :=
  fetch_availability_bounded_sweep [true] ⟨[], [], [true], 1⟩
    (Relation.ReflTransGen.single
      (SweepStep.complete (initSweep [true]) true (by decide)))
